import Mathlib

/-!
Verification development for the Downloader_Bot repository
(src/downloader.py, src/userbot.py, src/main.py, src/keep_alive.py).

Each definition below is a shallow embedding of a function or loop of the
source; doc comments name the source location. Machine-level concerns
(actual sockets, subprocesses, the filesystem) are represented by explicit
data: a download method's run is a record of its boolean result and whether
the destination file exists afterwards, an HTTP response is its status plus
its byte chunks, a directory is the list of its regular files with sizes,
and wall-clock timestamps are natural numbers of seconds. Text is handled
on `List Char` with structural recursion so every definition evaluates
inside the kernel.
-/

namespace DownloaderBot

/-! ## Character-list text helpers (semantics of the Python string
operations used by the source, written structurally) -/

/-- Characters after the first occurrence of `"://"`, or `none` when the
marker is absent (the scheme/rest split `urllib.parse` performs on the
`http://` and `https://` links this bot accepts). -/
def drop_scheme : List Char → Option (List Char)
  | [] => none
  | ':' :: '/' :: '/' :: rest => some rest
  | _ :: xs => drop_scheme xs

/-- Characters strictly before the first occurrence of `c` (the whole list
when `c` is absent): Python's `s.split(c)[0]`. -/
def take_until_char (c : Char) : List Char → List Char
  | [] => []
  | x :: xs => if x = c then [] else x :: take_until_char c xs

/-- From the first `'/'` (inclusive) to the end; `[]` when there is no
`'/'`: how `urlparse` separates the authority from the path. -/
def from_first_slash : List Char → List Char
  | [] => []
  | x :: xs => if x = '/' then x :: xs else from_first_slash xs

/-- Characters after the last `'/'` (the whole list when there is no
`'/'`): Python's `os.path.basename` on the paths at hand. -/
def basename_chars (l : List Char) : List Char :=
  l.foldl (fun acc c => if c = '/' then [] else acc ++ [c]) []

/-- Whether `sep` occurs as a contiguous sublist: Python's `sep in s`. -/
def contains_sub (sep : List Char) : List Char → Bool
  | [] => sep.isEmpty
  | x :: xs => sep.isPrefixOf (x :: xs) || contains_sub sep xs

/-- Python's `s.lower()` on the character list. -/
def lower_chars (l : List Char) : List Char :=
  l.map Char.toLower

/-- Python's `s.endswith(suf)`. -/
def ends_with (suf s : String) : Bool :=
  suf.data.reverse.isPrefixOf s.data.reverse

/-! ## Filename derivation (src/downloader.py lines 19-28) -/

/-- Path component of a URL, as `urllib.parse.urlparse(url).path` computes
it for the direct links this bot accepts: the text after the first `://`
loses its fragment (`#...`) and query (`?...`), then the authority runs up
to the first `/` and the path is the rest (empty when the URL has no `/`
after the authority). A string without `://` is all path (no authority). -/
def url_path_chars (l : List Char) : List Char :=
  match drop_scheme l with
  | none => take_until_char '?' (take_until_char '#' l)
  | some rest => from_first_slash (take_until_char '?' (take_until_char '#' rest))

/-- `VideoDownloader.get_filename_from_url` (src/downloader.py lines
19-28): basename of the URL's parsed path, replaced by `"video.mp4"`
exactly when it is empty or contains no `.` character
(`if not filename or '.' not in filename`). -/
def get_filename_from_url (url : String) : String :=
  let filename := basename_chars (url_path_chars url.data)
  if filename = [] ∨ filename.contains '.' = false then "video.mp4"
  else ⟨filename⟩

/-! ## Built-in streaming client status handling
(src/downloader.py lines 266-323, `download_with_requests`) -/

/-- An HTTP response as the built-in client sees it: status code plus the
byte chunks of its body (`response.content.iter_chunked`). -/
structure HttpResponse where
  status : Nat
  chunks : List (List Nat)
deriving DecidableEq

/-- Core of `VideoDownloader.download_with_requests` (src/downloader.py
lines 284-319): on a status other than 200 it logs an error and returns
`False` before reading the body (no bytes written); on 200 it streams every
chunk to the destination file and returns `True`. The result pairs the
returned boolean with the bytes written to the destination. -/
def download_with_requests (resp : HttpResponse) : Bool × List Nat :=
  if resp.status ≠ 200 then (false, [])
  else (true, resp.chunks.flatten)

/-! ## Duration estimate (src/userbot.py lines 240-249) -/

/-- `TelegramUserbot._get_video_duration`: `none` stands for a file whose
size cannot be read (the bare `except` branch returning 60); otherwise the
estimate is `max(10, min(3600, file_size // 125000))`. The embedding is a
total function, matching the code's never-raises contract. -/
def get_video_duration (fileSize : Option Nat) : Nat :=
  match fileSize with
  | some n => max 10 (min 3600 (n / 125000))
  | none => 60

/-! ## Fetch strategy chain (src/downloader.py lines 325-416) -/

/-- The three download methods of `VideoDownloader`, in the source's
priority order. -/
inductive DLMethod
  | aria2c
  | wget
  | requestsClient
deriving DecidableEq

/-- Observable outcome of running one download method: the boolean the
method returned (each `download_with_*` catches its own exceptions and
returns `False`, so no error escapes), and whether the destination file
exists afterwards (`file_path.exists()` in `download_video`). -/
structure MethodResult where
  success : Bool
  filePresent : Bool
deriving DecidableEq

/-- Host and network environment of one `download_video` call:
`shutil.which` availability of the two external tools
(`check_tools_availability`, src/downloader.py lines 325-333) and the
result each method would produce if run. -/
structure DLEnv where
  aria2c_available : Bool
  wget_available : Bool
  run_aria2c : MethodResult
  run_wget : MethodResult
  run_requests : MethodResult

/-- A method attempt counts as a success in `download_video` exactly when
it returned `True` and the destination file exists (`success and
file_path.exists()`). -/
def methodOk (r : MethodResult) : Bool := r.success && r.filePresent

/-- The result each method produces in the given environment. -/
def runMethod (env : DLEnv) : DLMethod → MethodResult
  | .aria2c => env.run_aria2c
  | .wget => env.run_wget
  | .requestsClient => env.run_requests

/-- The methods `download_video` can reach, in its try order: aria2c when
available, then wget when available, then the built-in client always. -/
def available_methods (env : DLEnv) : List DLMethod :=
  (if env.aria2c_available then [DLMethod.aria2c] else []) ++
    (if env.wget_available then [DLMethod.wget] else []) ++
    [DLMethod.requestsClient]

/-- `VideoDownloader.download_video` (src/downloader.py lines 335-416),
after URL validation and stale-file removal: tries aria2c when available,
returns the destination path on `success and file_path.exists()`;
otherwise tries wget when available under the same test; otherwise the
built-in client; returns `None` when every tried method failed. The first
component is the winning method (`some m` stands for returning
`str(file_path)` after method `m`; `none` for returning `None`), the
second the list of methods actually run. -/
def download_video (env : DLEnv) : Option DLMethod × List DLMethod :=
  if env.aria2c_available && methodOk env.run_aria2c then
    (some DLMethod.aria2c, [DLMethod.aria2c])
  else
    let tried0 := if env.aria2c_available then [DLMethod.aria2c] else []
    if env.wget_available && methodOk env.run_wget then
      (some DLMethod.wget, tried0 ++ [DLMethod.wget])
    else
      let tried1 := tried0 ++ (if env.wget_available then [DLMethod.wget] else [])
      if methodOk env.run_requests then
        (some DLMethod.requestsClient, tried1 ++ [DLMethod.requestsClient])
      else
        (none, tried1 ++ [DLMethod.requestsClient])

/-- The spec's own wording of the fetch contract, for comparison with the
code: "Tries, in fixed priority order, each available method; stops at
first success" — the first available method whose run succeeds. -/
def spec_first_success (env : DLEnv) : Option DLMethod :=
  (available_methods env).find? (fun m => methodOk (runMethod env m))

/-! ## Progress throttles -/

/-- Throttle state of the aria2c progress loop (src/downloader.py lines
72-135): `last_progress` (initially `""`) and `last_update_time`
(initially `0`). -/
structure DLProg where
  lastProgress : String
  lastUpdateTime : Nat
deriving DecidableEq

/-- Initial throttle state of the aria2c progress loop. -/
def dl_init : DLProg := ⟨"", 0⟩

/-- The aria2c progress loop (src/downloader.py lines 72-135) fed a stream
of (timestamp, rendered message) events — one event per parsed progress
line. A message is forwarded to the sink only when at least 3 seconds have
passed since the last forward (`(current_time - last_update_time) >= 3`)
and the rendered text differs from the previous forward (`progress_msg !=
last_progress`); both state fields update only on a forward. Returns the
forwarded (timestamp, message) pairs in order. -/
def dl_run (s : DLProg) : List (Nat × String) → List (Nat × String)
  | [] => []
  | (t, msg) :: rest =>
    if 3 ≤ t - s.lastUpdateTime then
      if msg ≠ s.lastProgress then (t, msg) :: dl_run ⟨msg, t⟩ rest
      else dl_run s rest
    else dl_run s rest

/-- Throttle state of `upload_progress` (src/userbot.py lines 146-168):
`last_upload_update` (initially `0`) and `last_percentage` (initially
`0`, a float in the source, a rational here). -/
structure ULProg where
  lastUploadUpdate : Nat
  lastPercentage : ℚ
deriving DecidableEq

/-- One call of `upload_progress(current, total)` (src/userbot.py lines
148-168) at time `t`: the message is forwarded when 2 seconds have passed,
or the percentage grew by 5 points, or `current == total`; on a forward
both state fields update. The forwarded payload is abstracted to the
`(current, total)` byte counts the rendered text is built from. -/
def ul_step (s : ULProg) (t current total : Nat) : ULProg × Option (Nat × Nat) :=
  let percentage : ℚ := (current : ℚ) / (total : ℚ) * 100
  if 2 ≤ t - s.lastUploadUpdate ∨ 5 ≤ percentage - s.lastPercentage ∨ current = total then
    (⟨t, percentage⟩, some (current, total))
  else
    (s, none)

/-! ## Relay send (src/userbot.py lines 91-238) -/

/-- Result of one `client.send_file` attempt: success, or an exception
carrying its message text. -/
inductive AttemptOutcome
  | ok
  | err (msg : String)

/-- The retry classifier of `send_video_to_group` (src/userbot.py line
214): an error is transient when its lowercased text contains one of
`timeout`, `connection`, `network`, `temporary`. -/
def is_transient_error (msg : String) : Bool :=
  ["timeout", "connection", "network", "temporary"].any
    (fun k => contains_sub k.data (lower_chars msg.data))

/-- Environment of one `send_video_to_group` call: whether client
initialization succeeds at attempt `i` (`initialize_client` returns a
boolean, catching its own exceptions), and the outcome `client.send_file`
would produce at attempt `i`. -/
structure SendEnv where
  initOk : Nat → Bool
  outcome : Nat → AttemptOutcome

/-- Observable result of `send_video_to_group`: the returned boolean, how
many `send_file` attempts actually ran, and whether the local artifact
file still exists on return. -/
structure SendResult where
  ok : Bool
  sendAttempts : Nat
  fileExistsAfter : Bool
deriving DecidableEq

/-- The `for attempt in range(max_retries)` loop of
`TelegramUserbot.send_video_to_group` (src/userbot.py lines 93-238),
parameterized by the remaining iteration count; `maxRetries - remaining`
is the current attempt index. Per iteration: if the client is absent and
`initialize_client` fails, retry when iterations remain, else return
`False` with NO cleanup (line 101); if the artifact file is absent,
return `False` (lines 104-106); otherwise run `send_file` — on success
clean up and return `True` (lines 199-207); on an exception, retry
(resetting the client) when iterations remain and the error is transient
(lines 213-226), else clean up and return `False` (lines 228-234). Fuel
exhaustion is the post-loop cleanup-and-return-`False` (lines 236-238).
`cleanup_file` (src/downloader.py lines 418-425) deletes the file when it
exists, so cleanup leaves `fileExistsAfter = false`. -/
def sendGo (env : SendEnv) (maxRetries : Nat) :
    Nat → Bool → Bool → Nat → SendResult
  | 0, _, _, attempts => ⟨false, attempts, false⟩
  | r + 1, client, fileThere, attempts =>
    let i := maxRetries - (r + 1)
    if client = false ∧ env.initOk i = false then
      if 0 < r then sendGo env maxRetries r false fileThere attempts
      else ⟨false, attempts, fileThere⟩
    else if fileThere = false then ⟨false, attempts, false⟩
    else
      match env.outcome i with
      | .ok => ⟨true, attempts + 1, false⟩
      | .err msg =>
        if 0 < r ∧ is_transient_error msg = true then
          sendGo env maxRetries r false fileThere (attempts + 1)
        else ⟨false, attempts + 1, false⟩

/-- `TelegramUserbot.send_video_to_group(file_path, ..., max_retries)`
(src/userbot.py lines 91-238): `client0` is whether `self.client` is
already initialized, `fileThere` whether the artifact exists at call
time. -/
def send_video_to_group (env : SendEnv) (client0 fileThere : Bool)
    (maxRetries : Nat) : SendResult :=
  sendGo env maxRetries maxRetries client0 fileThere 0

/-! ## Queue engine state (src/main.py) -/

/-- Job status strings of `QueueItem.status` (src/main.py line 30). -/
inductive JStatus
  | queued
  | downloading
  | uploading
  | completed
  | failed
  | cancelled
deriving DecidableEq

/-- One `QueueItem` (src/main.py lines 24-31), identified by a number and
carrying its status; the url/chat/message fields are routing data the
claims do not touch. -/
structure QJob where
  id : Nat
  status : JStatus
deriving DecidableEq

/-- The queue-relevant state of `TelegramBot` (src/main.py lines 33-44):
`download_queue`, `current_item`, `is_processing`, `cancelled`. -/
structure QState where
  pending : List QJob
  currentJob : Option QJob
  isProcessing : Bool
  cancelled : Bool
deriving DecidableEq

/-- State of `TelegramBot.__init__`: empty queue, no current item, not
processing, not cancelled. -/
def initState : QState := ⟨[], none, false, false⟩

/-- Marking a job cancelled (`self.current_item.status = "cancelled"`,
src/main.py line 132). -/
def set_cancelled (j : QJob) : QJob := { j with status := JStatus.cancelled }

/-- `TelegramBot.cancel_command` (src/main.py lines 114-140): on an empty
queue with no current item it replies "No downloads to cancel!" and
returns without reporting a count (`none`); otherwise it counts pending
plus the current item (if any), sets the `cancelled` flag, clears the
queue, marks the current item cancelled (leaving it in place), and
reports the count. -/
def cancel_command (s : QState) : QState × Option Nat :=
  if s.pending = [] ∧ s.currentJob = none then (s, none)
  else
    let cancelled_count :=
      s.pending.length + (match s.currentJob with | some _ => 1 | none => 0)
    ({ pending := [],
       currentJob := s.currentJob.map set_cancelled,
       isProcessing := s.isProcessing,
       cancelled := true }, some cancelled_count)

/-- The guard of `TelegramBot.process_queue` (src/main.py lines 451-456):
starting the worker while `is_processing` is set is a no-op; otherwise it
sets `is_processing`. -/
def startWorker (s : QState) : QState :=
  if s.isProcessing then s else { s with isProcessing := true }

/-- Whether a job is in an in-flight status (Downloading or Uploading). -/
def jobInFlight (j : QJob) : Bool :=
  match j.status with
  | .downloading => true
  | .uploading => true
  | _ => false

/-- Whether the current slot holds an in-flight job. -/
def currentInFlight (s : QState) : Bool :=
  match s.currentJob with
  | some j => jobInFlight j
  | none => false

/-- Number of jobs in the state with status Downloading or Uploading. -/
def inFlightCount (s : QState) : Nat :=
  (s.pending.filter (fun j => jobInFlight j)).length +
    (match s.currentJob with
     | some j => if jobInFlight j then 1 else 0
     | none => 0)

/-- Modelled from the spec: src/main.py is cut off inside
`process_queue` (after the `status = "downloading"` assignment at line
488), so the transitions of the worker loop past that point — fetch
failure, the move to Uploading, relay completion, and the idle reset —
follow spec sections 4.3 and 7 ("On fetch failure: mark Failed ... On
fetch success: status → Uploading ... On relay success: status →
Completed ... on relay failure: status → Failed ... set isRunning false,
clear current"). The remaining constructors embed code present in src/:
`enqueue` is `handle_message` appending a queued item (src/main.py lines
426-434), `start` is the `process_queue` entry guard (lines 448-456),
`popNext` and `markDownloading` are lines 460-488, and `cancelAll` is
`cancel_command`. Every worker-loop transition carries the
`isProcessing = true` guard because it executes inside `process_queue`. -/
inductive Step : QState → QState → Prop
  | enqueue (s : QState) (n : Nat) :
      Step s { s with pending := s.pending ++ [⟨n, JStatus.queued⟩] }
  | start (s : QState) :
      Step s (startWorker s)
  | popNext (s : QState) (j : QJob) (rest : List QJob) :
      s.isProcessing = true → s.cancelled = false →
      s.pending = j :: rest →
      Step s { s with pending := rest, currentJob := some j }
  | markDownloading (s : QState) (j : QJob) :
      s.isProcessing = true → s.currentJob = some j → j.status = JStatus.queued →
      Step s { s with currentJob := some { j with status := JStatus.downloading } }
  | fetchFailed (s : QState) (j : QJob) :
      s.isProcessing = true → s.currentJob = some j → j.status = JStatus.downloading →
      Step s { s with currentJob := some { j with status := JStatus.failed } }
  | startUpload (s : QState) (j : QJob) :
      s.isProcessing = true → s.currentJob = some j → j.status = JStatus.downloading →
      Step s { s with currentJob := some { j with status := JStatus.uploading } }
  | relayDone (s : QState) (j : QJob) (ok : Bool) :
      s.isProcessing = true → s.currentJob = some j → j.status = JStatus.uploading →
      Step s { s with currentJob := some { j with status := if ok then JStatus.completed else JStatus.failed } }
  | goIdle (s : QState) :
      s.isProcessing = true → currentInFlight s = false →
      Step s { s with isProcessing := false, currentJob := none, cancelled := false }
  | cancelAll (s : QState) :
      Step s (cancel_command s).1

/-- States reachable from the freshly constructed bot. -/
def Reachable (s : QState) : Prop :=
  Relation.ReflTransGen Step initState s

/-- All queued jobs waiting in the pending deque. -/
def pendingAllQueued (s : QState) : Prop :=
  ∀ j ∈ s.pending, j.status = JStatus.queued

/-! ## Storage purge (src/main.py lines 142-193) -/

/-- `TelegramBot.del_storage_command` on a downloads directory holding
only regular files, given as (name, size) pairs: it first sums sizes and
counts files; when the count is 0 it replies "already empty" and reports
nothing (`none`); otherwise it removes every file (each `os.remove`
succeeding in this model) and reports the deleted count and the byte
total. The result pairs the reported `(filesDeleted, bytesFreed)` with
the directory contents afterwards. -/
def del_storage_command (files : List (String × Nat)) :
    Option (Nat × Nat) × List (String × Nat) :=
  let file_count := files.length
  let total_size := (files.map (fun f => f.2)).sum
  if file_count = 0 then (none, files)
  else (some (file_count, total_size), [])

end DownloaderBot

namespace DownloaderBot

/-! ## Claim C3: filename derivation -/

/-- C3 counterexample: the claim says a URL whose basename ends in `.bin`
yields a filename ending in `.mp4`, but the code keeps any basename that
contains a dot: `get_filename_from_url` on `http://example.com/file.bin`
returns `file.bin`, which does not end in `.mp4`. -/
theorem filename_bin_cex :
    get_filename_from_url "http://example.com/file.bin" = "file.bin" ∧
    ends_with ".mp4" (get_filename_from_url "http://example.com/file.bin") = false := by
  decide

/-- C3 amended: the derived filename is the basename of the URL's path,
replaced by `video.mp4` exactly when that basename is empty or contains no
dot — in particular a URL with no path component yields `video.mp4`, and
any basename containing a dot (such as one ending in `.bin`) is kept
unchanged, with no normalization to a video extension. -/
theorem filename_derivation_amended :
    get_filename_from_url "http://example.com" = "video.mp4" ∧
    ∀ url : String,
      (basename_chars (url_path_chars url.data) = [] ∨
          (basename_chars (url_path_chars url.data)).contains '.' = false →
        get_filename_from_url url = "video.mp4") ∧
      ((basename_chars (url_path_chars url.data)).contains '.' = true →
        get_filename_from_url url = ⟨basename_chars (url_path_chars url.data)⟩) := by
  refine ⟨by decide, fun url => ⟨fun h => ?_, fun h => ?_⟩⟩
  · simp only [get_filename_from_url]
    rw [if_pos h]
  · simp only [get_filename_from_url]
    rw [if_neg]
    rintro (hnil | hfalse)
    · rw [hnil] at h
      simp [List.contains] at h
    · rw [h] at hfalse
      exact absurd hfalse (by decide)

/-- C3 witness: the amended theorem applied to a concrete URL whose
basename contains a dot. -/
theorem filename_derivation_amended_witness :
    get_filename_from_url "http://archive.org/items/clip.bin" =
      ⟨basename_chars (url_path_chars "http://archive.org/items/clip.bin".data)⟩ :=
  (filename_derivation_amended.2 "http://archive.org/items/clip.bin").2 (by decide)

/-! ## Claim C4: non-success HTTP status in the built-in client -/

/-- C4 counterexample: the claim says a non-success status is logged as a
warning only and the transfer still proceeds, but on status 404 the
built-in client returns failure and writes no bytes — it does not proceed
with the transfer. -/
theorem requests_nonsuccess_cex :
    download_with_requests ⟨404, [[7, 8, 9]]⟩ = (false, []) ∧
    download_with_requests ⟨404, [[7, 8, 9]]⟩ ≠ (true, [7, 8, 9]) := by
  decide

/-- C4 amended: on any HTTP status other than 200 the built-in streaming
client logs the status and aborts, returning failure with no bytes
written (the failure then demotes to the fallback chain's next step); the
transfer proceeds only on status 200, in which case every chunk is
written and success is returned. -/
theorem requests_status_amended :
    (∀ resp : HttpResponse, resp.status ≠ 200 →
      download_with_requests resp = (false, [])) ∧
    (∀ resp : HttpResponse, resp.status = 200 →
      download_with_requests resp = (true, resp.chunks.flatten)) := by
  constructor
  · intro resp h
    simp [download_with_requests, h]
  · intro resp h
    simp [download_with_requests, h]

/-- C4 witness: the amended theorem applied to a concrete 404 response. -/
theorem requests_status_amended_witness :
    download_with_requests ⟨404, [[1, 2]]⟩ = (false, []) :=
  requests_status_amended.1 ⟨404, [[1, 2]]⟩ (by decide)

/-! ## Claim C10: duration estimate -/

/-- C10: for every readable file size the duration estimate is the size
divided by 125000 clamped to [10, 3600]; an unreadable size yields the
default 60; the result always lies in [10, 3600] and the function is
total (never raises). -/
theorem video_duration_clamped :
    ∀ sz : Option Nat,
      10 ≤ get_video_duration sz ∧
      get_video_duration sz ≤ 3600 ∧
      get_video_duration none = 60 ∧
      ∀ n : Nat, get_video_duration (some n) = max 10 (min 3600 (n / 125000)) := by
  intro sz
  refine ⟨?_, ?_, rfl, fun n => rfl⟩
  · cases sz with
    | none => decide
    | some n => simp only [get_video_duration]; omega
  · cases sz with
    | none => decide
    | some n => simp only [get_video_duration]; omega

/-! ## Claim C9: storage purge -/

/-- C9 counterexample: the claim quantifies over every directory of
regular files, but on an empty directory `del_storage_command` replies
"already empty" and reports no counts at all, instead of the claimed
`filesDeleted 0, bytesFreed 0`. -/
theorem purge_storage_empty_cex :
    del_storage_command [] = (none, []) ∧
    (del_storage_command []).1 ≠ some (0, 0) := by
  decide

/-- C9 amended: on every non-empty directory containing only regular
files, the purge deletes every file, leaves the directory empty, and
reports the file count and the byte total; an empty directory is reported
as already empty, with no counts. -/
theorem purge_storage_amended :
    ∀ files : List (String × Nat), files ≠ [] →
      del_storage_command files =
        (some (files.length, (files.map (fun f => f.2)).sum), []) := by
  intro files h
  simp [del_storage_command, h]

/-- C9 witness: the amended theorem on the spec's example of 3 files
totaling 5242880 bytes. -/
theorem purge_storage_amended_witness :
    del_storage_command [("a.mp4", 1048576), ("b.mp4", 2097152), ("c.mp4", 2097152)] =
      (some (3, 5242880), []) :=
  purge_storage_amended [("a.mp4", 1048576), ("b.mp4", 2097152), ("c.mp4", 2097152)]
    (by decide)

/-! ## Claim C5: cancel-all -/

/-- C5 counterexample: with no pending jobs and no current job the claim
asserts a reported count of N = 0, but `cancel_command` replies "No
downloads to cancel!" and reports no count. -/
theorem cancel_all_empty_cex :
    cancel_command initState = (initState, none) ∧
    (cancel_command initState).2 ≠ some 0 := by
  decide

/-- C5 amended: for every queue state with N pending jobs and at most one
current job, where N ≥ 1 or a current job exists, cancel-all immediately
empties the pending queue, sets the cancellation flag, leaves the current
job in place marked Cancelled rather than removing it, and reports a
cancelled count of N+1 when a current job exists and N otherwise; when
the queue is empty and no job is current it reports nothing and changes
nothing. -/
theorem cancel_all_amended :
    ∀ s : QState, s.pending ≠ [] ∨ s.currentJob ≠ none →
      (cancel_command s).1.pending = [] ∧
      (cancel_command s).1.currentJob = s.currentJob.map set_cancelled ∧
      (cancel_command s).1.cancelled = true ∧
      (cancel_command s).2 =
        some (s.pending.length +
          (match s.currentJob with | some _ => 1 | none => 0)) := by
  intro s h
  have hc : ¬ (s.pending = [] ∧ s.currentJob = none) := by tauto
  simp [cancel_command, hc]

/-- C5 witness: the amended theorem on a state with two pending jobs and
a current downloading job, giving a reported count of 3. -/
theorem cancel_all_amended_witness :
    (cancel_command ⟨[⟨1, JStatus.queued⟩, ⟨2, JStatus.queued⟩],
        some ⟨0, JStatus.downloading⟩, true, false⟩).1.pending = [] ∧
    (cancel_command ⟨[⟨1, JStatus.queued⟩, ⟨2, JStatus.queued⟩],
        some ⟨0, JStatus.downloading⟩, true, false⟩).1.currentJob =
      some ⟨0, JStatus.cancelled⟩ ∧
    (cancel_command ⟨[⟨1, JStatus.queued⟩, ⟨2, JStatus.queued⟩],
        some ⟨0, JStatus.downloading⟩, true, false⟩).2 = some 3 := by
  have h := cancel_all_amended ⟨[⟨1, JStatus.queued⟩, ⟨2, JStatus.queued⟩],
    some ⟨0, JStatus.downloading⟩, true, false⟩ (Or.inl (by decide))
  exact ⟨h.1, h.2.1, h.2.2.2⟩

/-! ## Claim C2: fetch strategy priority chain -/

/-- C2: `download_video` tries the available methods in the fixed order
aria2c, wget, built-in client; it returns exactly the first available
method whose run succeeds and leaves the destination file present (the
spec-side `spec_first_success`), returns `None` precisely when every
available method failed, and the methods actually run are the failing ones in
priority order followed by the winner. -/
theorem download_video_priority :
    ∀ env : DLEnv,
      (download_video env).1 = spec_first_success env ∧
      ((download_video env).1 = none ↔
        ∀ m ∈ available_methods env, methodOk (runMethod env m) = false) ∧
      (download_video env).2 =
        (available_methods env).takeWhile (fun m => !(methodOk (runMethod env m))) ++
          (download_video env).1.toList := by
  intro env
  obtain ⟨a, w, ⟨as, af⟩, ⟨ws, wf⟩, ⟨rs, rf⟩⟩ := env
  cases a <;> cases w <;> cases as <;> cases af <;> cases ws <;> cases wf <;>
    cases rs <;> cases rf <;> decide

/-- C2 witness: the theorem applied to a host with both accelerators
available, aria2c reporting success but leaving no file, wget failing,
and the built-in client succeeding. -/
theorem download_video_priority_witness :
    (download_video ⟨true, true, ⟨true, false⟩, ⟨false, true⟩, ⟨true, true⟩⟩).1 =
      spec_first_success ⟨true, true, ⟨true, false⟩, ⟨false, true⟩, ⟨true, true⟩⟩ :=
  (download_video_priority ⟨true, true, ⟨true, false⟩, ⟨false, true⟩, ⟨true, true⟩⟩).1

/-! ## Claim C6: progress throttles -/

/-- Invariant of the aria2c progress throttle: starting from any state,
the forwarded (time, message) pairs, preceded by the state's own
(time, message), form a chain in which each forward is at least 3 seconds
after the previous one and textually different from it. -/
theorem dl_run_chain_aux (s : DLProg) (events : List (Nat × String)) :
    List.Chain' (fun a b => a.1 + 3 ≤ b.1 ∧ a.2 ≠ b.2)
      ((s.lastUpdateTime, s.lastProgress) :: dl_run s events) := by
  induction events generalizing s with
  | nil => simp [dl_run]
  | cons e rest ih =>
    obtain ⟨t, msg⟩ := e
    by_cases h3 : 3 ≤ t - s.lastUpdateTime
    · by_cases hm : msg ≠ s.lastProgress
      · have hrun : dl_run s ((t, msg) :: rest) = (t, msg) :: dl_run ⟨msg, t⟩ rest := by
          simp [dl_run, h3, hm]
        rw [hrun]
        refine List.chain'_cons.mpr ⟨⟨by omega, Ne.symm hm⟩, ?_⟩
        exact ih ⟨msg, t⟩
      · have hrun : dl_run s ((t, msg) :: rest) = dl_run s rest := by
          simp [dl_run, h3, hm]
        rw [hrun]
        exact ih s
    · have hrun : dl_run s ((t, msg) :: rest) = dl_run s rest := by
        simp [dl_run, h3]
      rw [hrun]
      exact ih s

/-- C6 counterexample: the claim says the final 100% event is always
forwarded, but on the download path a final event arriving less than 3
seconds after the previous forward is dropped: of the two events below
only the first is forwarded and the 100% message never reaches the
sink. -/
theorem throttle_final_event_cex :
    dl_run dl_init [(5, "Downloading: 50%"), (7, "Downloading: 100%")] =
      [(5, "Downloading: 50%")] ∧
    (7, "Downloading: 100%") ∉
      dl_run dl_init [(5, "Downloading: 50%"), (7, "Downloading: 100%")] := by
  decide

/-- C6 amended: the two throttles behave differently. The download-path
throttle forwards at most one message per 3-second window and never
forwards two identical consecutive messages, but has no percentage
trigger and may drop the final 100% event (no test for the last event
exists on that path). The upload-path throttle forwards when 2 seconds
elapsed, or the percentage grew by 5 points, or the transfer is complete
— so the final `current = total` event is always forwarded — and stays
silent when none of the three triggers holds, but it performs no textual
deduplication. -/
theorem throttle_amended :
    (∀ events : List (Nat × String),
      List.Chain' (fun a b => a.1 + 3 ≤ b.1 ∧ a.2 ≠ b.2)
        ((0, "") :: dl_run dl_init events)) ∧
    (∀ (s : ULProg) (t current total : Nat), current = total →
      (ul_step s t current total).2 = some (current, total)) ∧
    (∀ (s : ULProg) (t current total : Nat),
      ¬ 2 ≤ t - s.lastUploadUpdate →
      ¬ 5 ≤ (current : ℚ) / (total : ℚ) * 100 - s.lastPercentage →
      current ≠ total →
      (ul_step s t current total).2 = none) := by
  refine ⟨fun events => dl_run_chain_aux dl_init events, ?_, ?_⟩
  · intro s t current total h
    simp [ul_step, h]
  · intro s t current total h1 h2 h3
    simp [ul_step, h1, h2, h3]

/-- C6 witness: the amended theorem forwards a concrete final upload
event. -/
theorem throttle_amended_witness :
    (ul_step ⟨0, 0⟩ 1 700 700).2 = some (700, 700) :=
  throttle_amended.2.1 ⟨0, 0⟩ 1 700 700 rfl

/-! ## Claims C1 and C7: relay send -/

/-- When client initialization always succeeds, every exit path of the
send loop performs the cleanup, regardless of the initial client state,
the artifact's presence, or the attempt outcomes. -/
theorem sendGo_cleanup_aux (env : SendEnv) :
    ∀ (r maxR a : Nat) (client fileThere : Bool),
      (∀ i, env.initOk i = true) →
      (sendGo env maxR r client fileThere a).fileExistsAfter = false := by
  intro r
  induction r with
  | zero =>
    intro maxR a client fileThere hInit
    simp [sendGo]
  | succ r ih =>
    intro maxR a client fileThere hInit
    cases fileThere with
    | false => simp [sendGo, hInit]
    | true =>
      cases ho : env.outcome (maxR - (r + 1)) with
      | ok => simp [sendGo, hInit, ho]
      | err m =>
        by_cases htr : 0 < r ∧ is_transient_error m = true
        · have hstep : sendGo env maxR (r + 1) client true a =
              sendGo env maxR r false true (a + 1) := by
            simp [sendGo, hInit, ho, htr]
          rw [hstep]
          exact ih maxR (a + 1) false true hInit
        · simp [sendGo, hInit, ho, htr]

/-- Behaviour of the send loop when client initialization always
succeeds and the artifact is present: attempt indices and the attempt
counter advance together (`maxR = a + r` links them), at most the
remaining iterations run, every attempt that was followed by another one
ended in a transient-classified error, and a non-transient error on the
iteration's first attempt ends the loop at once with failure. -/
theorem sendGo_retry_aux (env : SendEnv) :
    ∀ (r : Nat), ∀ (a maxR : Nat) (client : Bool),
      (∀ i, env.initOk i = true) → maxR = a + r →
      a ≤ (sendGo env maxR r client true a).sendAttempts ∧
      (sendGo env maxR r client true a).sendAttempts ≤ a + r ∧
      (∀ i, a ≤ i → i + 1 < (sendGo env maxR r client true a).sendAttempts →
        ∃ m, env.outcome i = AttemptOutcome.err m ∧ is_transient_error m = true) ∧
      (∀ m, 1 ≤ r → env.outcome a = AttemptOutcome.err m →
        is_transient_error m = false →
        (sendGo env maxR r client true a).ok = false ∧
        (sendGo env maxR r client true a).sendAttempts = a + 1) := by
  intro r
  induction r with
  | zero =>
    intro a maxR client hInit hM
    refine ⟨le_refl a, by simp [sendGo], ?_, ?_⟩
    · intro i hai hlt
      simp [sendGo] at hlt
      omega
    · intro m hr
      omega
  | succ r ih =>
    intro a maxR client hInit hM
    have hi : maxR - (r + 1) = a := by omega
    cases ho : env.outcome (maxR - (r + 1)) with
    | ok =>
      have hstep : sendGo env maxR (r + 1) client true a = ⟨true, a + 1, false⟩ := by
        simp [sendGo, hInit, ho]
      rw [hi] at ho
      rw [hstep]
      dsimp only
      refine ⟨by omega, by omega, ?_, ?_⟩
      · intro i hai hlt
        omega
      · intro m hr hout htr
        rw [hout] at ho
        exact absurd ho (by simp)
    | err m =>
      by_cases htr : 0 < r ∧ is_transient_error m = true
      · have hstep : sendGo env maxR (r + 1) client true a =
            sendGo env maxR r false true (a + 1) := by
          simp [sendGo, hInit, ho, htr]
        rw [hi] at ho
        obtain ⟨ih1, ih2, ih3, ih4⟩ := ih (a + 1) maxR false hInit (by omega)
        rw [hstep]
        refine ⟨by omega, by omega, ?_, ?_⟩
        · intro i hai hlt
          rcases Nat.eq_or_lt_of_le hai with heq | hlt2
          · exact ⟨m, by rw [← heq]; exact ho, htr.2⟩
          · exact ih3 i (by omega) hlt
        · intro m' hr hout htr'
          rw [hout] at ho
          have hmm : m' = m := by
            injection ho
          rw [hmm] at htr'
          exact absurd htr.2 (by simp [htr'])
      · have hstep : sendGo env maxR (r + 1) client true a = ⟨false, a + 1, false⟩ := by
          simp [sendGo, hInit, ho, htr]
        rw [hi] at ho
        rw [hstep]
        dsimp only
        refine ⟨by omega, by omega, ?_, ?_⟩
        · intro i hai hlt
          omega
        · intro m' hr hout htr'
          exact ⟨rfl, rfl⟩

/-- C1 counterexample: the claim says a failure return implies the
artifact no longer exists, but when client initialization fails on every
attempt `send_video_to_group` returns failure after zero send attempts
and the artifact file is still present (the early `return False` at
src/userbot.py line 101 skips the cleanup). -/
theorem send_cleanup_on_failure_cex :
    send_video_to_group ⟨fun _ => false, fun _ => AttemptOutcome.ok⟩ false true 3 =
      ⟨false, 0, true⟩ := by
  decide

/-- C1 amended: for every artifact and every outcome of the relay send in
which the client is present or initializes successfully at each attempt
(success, exhausted transient retries, or terminal failure on the first
attempt), `send_video_to_group` deletes the local artifact before
returning; a failure return caused by client initialization failing on
its final attempt, however, leaves the artifact in place, so a failure
return alone does not guarantee the file is gone. -/
theorem send_cleanup_amended :
    ∀ (env : SendEnv) (client0 fileThere : Bool) (maxRetries : Nat),
      (∀ i, env.initOk i = true) →
      (send_video_to_group env client0 fileThere maxRetries).fileExistsAfter = false := by
  intro env client0 fileThere maxRetries hInit
  exact sendGo_cleanup_aux env maxRetries maxRetries 0 client0 fileThere hInit

/-- C1 witness: the amended theorem on a run whose first attempt fails
with a transient connection error and whose second succeeds. -/
theorem send_cleanup_amended_witness :
    (send_video_to_group
        ⟨fun _ => true,
         fun i => if i = 0 then AttemptOutcome.err "connection reset by peer"
                  else AttemptOutcome.ok⟩
        true true 3).fileExistsAfter = false :=
  send_cleanup_amended
    ⟨fun _ => true,
     fun i => if i = 0 then AttemptOutcome.err "connection reset by peer"
              else AttemptOutcome.ok⟩
    true true 3 (fun _ => rfl)

/-- C7: when the client initializes successfully, `send_video_to_group`
performs at most `maxRetries` send attempts, every attempt that was
retried ended in an error classified transient (its lowercased text
contains timeout/connection/network/temporary), and a non-transient
failure on the first attempt terminates the send with a failure result
after exactly one attempt. -/
theorem send_retry_transient_only :
    ∀ (env : SendEnv) (maxRetries : Nat) (client0 : Bool),
      (∀ i, env.initOk i = true) →
      (send_video_to_group env client0 true maxRetries).sendAttempts ≤ maxRetries ∧
      (∀ i, i + 1 < (send_video_to_group env client0 true maxRetries).sendAttempts →
        ∃ m, env.outcome i = AttemptOutcome.err m ∧ is_transient_error m = true) ∧
      (∀ m, 1 ≤ maxRetries → env.outcome 0 = AttemptOutcome.err m →
        is_transient_error m = false →
        (send_video_to_group env client0 true maxRetries).ok = false ∧
        (send_video_to_group env client0 true maxRetries).sendAttempts = 1) := by
  intro env maxRetries client0 hInit
  obtain ⟨h1, h2, h3, h4⟩ :=
    sendGo_retry_aux env maxRetries 0 maxRetries client0 hInit (by omega)
  refine ⟨by simpa using h2, fun i hlt => h3 i (Nat.zero_le i) hlt, ?_⟩
  intro m hr hout htr
  have := h4 m hr hout htr
  simpa using this

/-- C7 witness: the theorem on a send whose single attempt raises a
non-transient error, giving failure after exactly one attempt. -/
theorem send_retry_transient_only_witness :
    (send_video_to_group
        ⟨fun _ => true, fun _ => AttemptOutcome.err "file part upload rejected"⟩
        true true 3).ok = false ∧
    (send_video_to_group
        ⟨fun _ => true, fun _ => AttemptOutcome.err "file part upload rejected"⟩
        true true 3).sendAttempts = 1 :=
  (send_retry_transient_only
      ⟨fun _ => true, fun _ => AttemptOutcome.err "file part upload rejected"⟩
      3 true (fun _ => rfl)).2.2
    "file part upload rejected" (by omega) rfl (by decide)

/-! ## Claim C8: single-worker in-flight invariant -/

/-- The worker-start guard changes no field but `isProcessing`. -/
theorem startWorker_pending_eq (s : QState) : (startWorker s).pending = s.pending := by
  unfold startWorker
  split <;> rfl

/-- The worker-start guard leaves the current slot unchanged. -/
theorem startWorker_current_eq (s : QState) :
    (startWorker s).currentJob = s.currentJob := by
  unfold startWorker
  split <;> rfl

/-- Cancelling preserves the all-pending-jobs-queued invariant (it only
ever empties the pending deque). -/
theorem cancel_command_queued (s : QState) (h : pendingAllQueued s) :
    pendingAllQueued (cancel_command s).1 := by
  by_cases hc : s.pending = [] ∧ s.currentJob = none
  · simp only [cancel_command, if_pos hc]
    exact h
  · simp only [cancel_command, if_neg hc]
    intro j hj
    simp at hj

/-- Every transition of the queue engine keeps all pending jobs in the
Queued status. -/
theorem step_preserves_queued {s s' : QState} (hstep : Step s s')
    (h : pendingAllQueued s) : pendingAllQueued s' := by
  cases hstep with
  | enqueue n =>
    intro j hj
    rcases List.mem_append.mp hj with h1 | h2
    · exact h j h1
    · rw [List.mem_singleton.mp h2]
  | start =>
    intro j hj
    rw [startWorker_pending_eq] at hj
    exact h j hj
  | popNext j0 rest hp hc hpend =>
    intro j hj
    apply h
    rw [hpend]
    exact List.mem_cons_of_mem _ hj
  | markDownloading j0 hp hcur hst =>
    intro j hj
    exact h j hj
  | fetchFailed j0 hp hcur hst =>
    intro j hj
    exact h j hj
  | startUpload j0 hp hcur hst =>
    intro j hj
    exact h j hj
  | relayDone j0 ok hp hcur hst =>
    intro j hj
    exact h j hj
  | goIdle hp hcur =>
    intro j hj
    exact h j hj
  | cancelAll =>
    exact cancel_command_queued _ h

/-- When every pending job is Queued, only the current slot can hold an
in-flight job, so the in-flight count is at most one. -/
theorem queued_inflight_le_one (s : QState) (h : pendingAllQueued s) :
    inFlightCount s ≤ 1 := by
  unfold inFlightCount
  have hf : s.pending.filter (fun j => jobInFlight j) = [] := by
    apply List.filter_eq_nil_iff.mpr
    intro j hj
    have hs := h j hj
    simp [jobInFlight, hs]
  rw [hf]
  cases hc : s.currentJob with
  | none => simp
  | some j => simp; split <;> omega

/-- C8: in every reachable queue state at most one job is Downloading or
Uploading; starting the worker while it is already running is a no-op;
and any transition that puts an in-flight job into the current slot runs
inside the worker (requires `isProcessing`). The worker-loop tail beyond
the Downloading transition is modelled from spec section 4.3 because
src/main.py is truncated there. -/
theorem single_inflight_invariant :
    (∀ s : QState, Reachable s → inFlightCount s ≤ 1) ∧
    (∀ s : QState, s.isProcessing = true → startWorker s = s) ∧
    (∀ s s' : QState, Step s s' → currentInFlight s' = true →
      currentInFlight s = true ∨ s.isProcessing = true) := by
  refine ⟨?_, ?_, ?_⟩
  · intro s hr
    apply queued_inflight_le_one
    unfold Reachable at hr
    induction hr with
    | refl =>
      intro j hj
      simp [initState] at hj
    | tail h1 h2 ih =>
      exact step_preserves_queued h2 ih
  · intro s h
    simp [startWorker, h]
  · intro s s' hstep hin
    cases hstep with
    | enqueue n =>
      left
      exact hin
    | start =>
      left
      unfold currentInFlight at hin ⊢
      rw [startWorker_current_eq] at hin
      exact hin
    | popNext j rest hp hc hpend =>
      right
      exact hp
    | markDownloading j hp hcur hst =>
      right
      exact hp
    | fetchFailed j hp hcur hst =>
      right
      exact hp
    | startUpload j hp hcur hst =>
      right
      exact hp
    | relayDone j ok hp hcur hst =>
      right
      exact hp
    | goIdle hp hcur =>
      right
      exact hp
    | cancelAll =>
      by_cases hc : s.pending = [] ∧ s.currentJob = none
      · left
        have heq : (cancel_command s).1 = s := by
          simp [cancel_command, hc]
        rw [heq] at hin
        exact hin
      · have hfalse : currentInFlight (cancel_command s).1 = false := by
          simp only [cancel_command, if_neg hc]
          unfold currentInFlight
          cases s.currentJob <;> simp [set_cancelled, jobInFlight]
        rw [hfalse] at hin
        exact absurd hin (by simp)

/-- C8 witness: the invariant at the initial state (reachable by the
empty run), and the no-op of starting the worker on a state already
processing. -/
theorem single_inflight_invariant_witness :
    inFlightCount initState ≤ 1 ∧
    startWorker ⟨[], none, true, false⟩ = ⟨[], none, true, false⟩ :=
  ⟨single_inflight_invariant.1 initState Relation.ReflTransGen.refl,
   single_inflight_invariant.2.1 ⟨[], none, true, false⟩ rfl⟩

end DownloaderBot
